import Mathlib

/-!
Verification of the page-analysis pipeline of the molaison-ai-backend service.

The development shallowly embeds the analyzers of `src/server.js` and of the
second server variant (`src/unnamed/part_000`): broken-link auditing
(`analyzeBrokenLinks` / `checkBrokenLinks`), keyword extraction
(`extractRealKeywords` / `extractKeywords`), technical SEO scoring
(`analyzeRealTechnicalSEO`), GEO scoring (`analyzeGEOOptimization`) and the
overall-score aggregators (`calculateOverallScore`, three variants).

JavaScript semantics used by the embedding:
* `Math.round q` is modelled as `Int.floor (q + 1/2)` (JS rounds halves toward
  positive infinity).  Where the source computes with IEEE doubles the
  embedding computes with exact rationals; every theorem below only depends on
  bounds or on integer-valued results, never on a half-way double rounding.
* `NaN` (produced by `0 / 0`) is modelled as `Option.none`.
* A JS plain object used as a dictionary is modelled as an association list in
  insertion order; `Object.entries` enumerates canonical array-index keys
  first, in ascending numeric order, then the remaining string keys in
  insertion order (ECMA-262 OrdinaryOwnPropertyKeys).  Tokens that collide
  with `Object.prototype` property names behave differently in JS (the
  `obj[k] || 0` pattern reads the inherited member); theorems that need the
  plain-dictionary reading carry an explicit hypothesis excluding those keys.
* `Array.prototype.sort` is stable (ES2019); it is modelled by
  `List.insertionSort`, which is stable and extensionally equal to any stable
  sort for the comparators used here.
-/

/-- JS `Math.round`: round half toward positive infinity. -/
def jsRound (q : ℚ) : ℤ := Int.floor (q + 1 / 2)

/-- `pat` is a prefix of `l` (character lists). -/
def leadsList : List Char → List Char → Bool
  | [], _ => true
  | _ :: _, [] => false
  | p :: ps, c :: cs => p == c && leadsList ps cs

/-- `pat` occurs contiguously inside `l` (character lists). -/
def subOccurs : List Char → List Char → Bool
  | pat, [] => pat.isEmpty
  | pat, c :: cs => leadsList pat (c :: cs) || subOccurs pat cs

/-- JS `s.includes(sub)`: substring containment. -/
def strIncl (s sub : String) : Bool := subOccurs sub.toList s.toList

/-- JS `s.startsWith(pre)`. -/
def strStarts (s pre : String) : Bool := leadsList pre.toList s.toList

/-- Skip characters until the `://` marker of a serialized URL. -/
def afterSchemeMarker : List Char → Option (List Char)
  | [] => none
  | ':' :: '/' :: '/' :: rest => some rest
  | _ :: cs => afterSchemeMarker cs

/-- `new URL(href).hostname` for a normalized special-scheme URL (no
userinfo): the characters between `://` and the next delimiter. -/
def urlHostname (href : String) : String :=
  match afterSchemeMarker href.toList with
  | some rest => ⟨rest.takeWhile (fun c => !(c == '/' || c == ':' || c == '?' || c == '#'))⟩
  | none => ""

/-- An outbound link extracted from the page markup (source field names:
`url`, `text`, `isInternal`). -/
structure LinkRecord where
  url : String
  text : String
  isInternal : Bool
deriving DecidableEq

/-- A broken-link entry (source fields `url`, `status`, `text`, `isInternal`,
`error`; `status = 0` marks the catch branch of the probe loop). -/
structure BrokenLinkRecord where
  url : String
  status : ℕ
  text : String
  isInternal : Bool
  error : String
deriving DecidableEq

/-- The observable result of probing one link: either an HTTP response with a
status code, or a transport-level failure (timeout, DNS, refused) carrying the
optional driver error code. -/
inductive ProbeOutcome where
  | httpResponse (status : ℕ)
  | transportFailure (code : Option String)
deriving DecidableEq

/-- `axios.head(url, \x7bvalidateStatus: s => s < 500\x7d)`: a response with
status `< 500` resolves; a response with status `≥ 500` rejects with an error
carrying a driver code; a transport failure rejects with its own code. -/
def axiosHeadLenient : ProbeOutcome → Except (Option String) ℕ
  | .httpResponse s => if s < 500 then .ok s else .error (some "ERR_BAD_RESPONSE")
  | .transportFailure c => .error c

/-- `error.code || 'Connection failed'` from the catch branch. -/
def errorCodeString : Option String → String
  | some c => c
  | none => "Connection failed"

/-- Body of the probe loop of `analyzeBrokenLinks` / `checkBrokenLinks`
(`src/server.js` lines 379-408, `src/unnamed/part_000` lines 859-888): a
resolved response with status `≥ 400` pushes a record with that status; any
rejection (status `≥ 500` or transport failure) is caught and pushes a record
with status `0`. -/
def checkLink (link : LinkRecord) (o : ProbeOutcome) : Option BrokenLinkRecord :=
  match axiosHeadLenient o with
  | .ok s =>
      if 400 ≤ s then
        some ⟨link.url, s, link.text, link.isInternal, "HTTP " ++ toString s⟩
      else none
  | .error c => some ⟨link.url, 0, link.text, link.isInternal, errorCodeString c⟩

/-- The `brokenLinks` array accumulated by the probe loop over the checked
links paired with their probe outcomes. -/
def brokenLinksOf (probed : List (LinkRecord × ProbeOutcome)) : List BrokenLinkRecord :=
  probed.filterMap (fun p => checkLink p.1 p.2)

/-- Specification predicate: the probe resolved to a status `≥ 400` or failed
at transport level. -/
def probeBroken : ProbeOutcome → Bool
  | .httpResponse s => decide (400 ≤ s)
  | .transportFailure _ => true

/-- The record `checkLink` produces when the probe is broken. -/
def brokenRecordOf (link : LinkRecord) (o : ProbeOutcome) : BrokenLinkRecord :=
  match o with
  | .httpResponse s =>
      if s < 500 then ⟨link.url, s, link.text, link.isInternal, "HTTP " ++ toString s⟩
      else ⟨link.url, 0, link.text, link.isInternal, errorCodeString (some "ERR_BAD_RESPONSE")⟩
  | .transportFailure c => ⟨link.url, 0, link.text, link.isInternal, errorCodeString c⟩

/-- The fraction `(links.filter(l => l.isInternal && l.url !== baseUrl).length
/ links.length) * 100` as an exact rational (meaningful only when `links` is
nonempty). -/
def deepLinkShare (links : List LinkRecord) (baseUrl : String) : ℚ :=
  (((links.filter (fun l => l.isInternal && l.url != baseUrl)).length : ℚ)
      / (links.length : ℚ)) * 100

/-- `deepLinkRatio` of `analyzeBrokenLinks` (`src/server.js` line 416):
`Math.round((deep / links.length) * 100)` with no guard — on an empty link
list JS computes `0/0 = NaN`, modelled as `none`. -/
def deepLinkPercentEnhanced (links : List LinkRecord) (baseUrl : String) : Option ℤ :=
  if links.length = 0 then none else some (jsRound (deepLinkShare links baseUrl))

/-- `deepLinkRatio` of `checkBrokenLinks` (`src/unnamed/part_000` line 896 and
`src/server.js` line 956): the same formula followed by `|| 0`, which maps the
`NaN` of the empty case (and a computed `0`) to `0`. -/
def deepLinkPercentGuarded (links : List LinkRecord) (baseUrl : String) : ℤ :=
  if links.length = 0 then 0 else jsRound (deepLinkShare links baseUrl)

/-- Base URL of an analysis request, with the components of its parsed form
(`new URL(url)`): the serialized href, the scheme (e.g. `"https:"`), and the
hostname. -/
structure BaseUrl where
  href : String
  scheme : String
  host : String

/-- True when the characters continue a scheme and reach `:`. -/
def schemeTailReachesColon : List Char → Bool
  | [] => false
  | c :: cs => c == ':' || ((c.isAlpha || c.isDigit || c == '+' || c == '-' || c == '.')
      && schemeTailReachesColon cs)

/-- The href carries an explicit URL scheme (`letter (letter|digit|+|-|.)* :`). -/
def hasUrlScheme (href : String) : Bool :=
  match href.toList with
  | [] => false
  | c :: cs => c.isAlpha && schemeTailReachesColon cs

/-- `new URL(href, base).href`, modelled for the href forms this development
exercises: an input with an explicit scheme is already absolute and resolves
to itself (identity on normalized inputs); protocol-relative (`//…`) and
root-relative (`/…`) references resolve against the normalized base.  Other
relative forms are outside the needed fragment and yield `none`; no theorem
below depends on them. -/
def resolveHref (base : BaseUrl) (href : String) : Option String :=
  if hasUrlScheme href then some href
  else if strStarts href "//" then some (base.scheme ++ href)
  else if strStarts href "/" then some (base.scheme ++ "//" ++ base.host ++ href)
  else none

/-- Per-anchor link extraction of `analyzeBrokenLinks` (`src/server.js` lines
358-372): skip empty, fragment-only, `mailto:` and `tel:` targets, resolve
against the base, classify internal by `absoluteUrl.includes(hostname)`;
a URL-parse failure is caught and the anchor skipped. -/
def mkLinkEnhanced (base : BaseUrl) (href text : String) : Option LinkRecord :=
  if href != "" && !strStarts href "#" && !strStarts href "mailto:"
      && !strStarts href "tel:" then
    (resolveHref base href).map (fun absUrl => ⟨absUrl, text.trim, strIncl absUrl base.host⟩)
  else none

/-- Per-anchor link extraction of the regex-based `checkBrokenLinks`
(`src/unnamed/part_000` lines 835-853 and `src/server.js` lines 895-913): only
empty, fragment-only and `mailto:` targets are skipped; an href starting with
`http` is taken verbatim, anything else goes through `new URL(href, base)`. -/
def mkLinkBasic (base : BaseUrl) (href text : String) : Option LinkRecord :=
  if href != "" && !strStarts href "#" && !strStarts href "mailto:" then
    (if strStarts href "http" then some href else resolveHref base href).map
      (fun absUrl => ⟨absUrl, text.trim, strIncl absUrl base.host⟩)
  else none

/-- The `isInternal` classification applied to a resolved absolute URL
(`absoluteUrl.includes(new URL(baseUrl).hostname)`). -/
def linkIsInternal (absUrl baseHost : String) : Bool := strIncl absUrl baseHost

def sampleLink : LinkRecord := ⟨"https://example.com/a", "A", true⟩

def exampleBase : BaseUrl := ⟨"https://example.com/", "https:", "example.com"⟩

/-- JS `\w`: ASCII letter, digit or underscore. -/
def isWordChar (c : Char) : Bool := c.isAlpha || c.isDigit || c == '_'

/-- JS `\s` restricted to the ASCII whitespace characters (the analyzed text
is ASCII in every theorem below). -/
def isSpaceChar (c : Char) : Bool :=
  c == ' ' || c == '\t' || c == '\n' || c == '\r' || c == '\x0b' || c == '\x0c'

/-- Maximal runs of non-space characters (the result of `split(/\s+/)`, minus
the empty edge entries that the length filter removes anyway). -/
def wordRuns : List Char → List Char → List (List Char)
  | acc, [] => if acc.isEmpty then [] else [acc]
  | acc, c :: cs =>
      if isSpaceChar c then
        if acc.isEmpty then wordRuns [] cs else acc :: wordRuns [] cs
      else wordRuns (acc ++ [c]) cs

/-- `text.toLowerCase().replace(/[^\w\s]/g, ' ').split(/\s+/)` (ASCII
fragment of `toLowerCase`). -/
def jsTokenize (text : String) : List String :=
  (wordRuns []
      ((text.toList.map Char.toLower).map
        (fun c => if isWordChar c || isSpaceChar c then c else ' '))).map
    (fun l => (⟨l⟩ : String))

/-- Stop-word list of `src/unnamed/part_000` (line 1199). -/
def isStopWord (w : String) : Bool :=
  ["the", "and", "or", "but", "in", "on", "at", "to", "for", "of", "with",
    "by"].contains w

/-- The `words` array of `extractKeywords` (`src/unnamed/part_000` lines
941-944): tokenize, keep tokens of length `> 2` that are not stop-words. -/
def extractKeywordTokens (text : String) : List String :=
  (jsTokenize text).filter (fun w => 2 < w.length && !isStopWord w)

/-- One `wordFreq[word] = (wordFreq[word] || 0) + 1` step on the dictionary
in insertion order: increment in place, or append a new key at the end. -/
def insertTok : List (String × ℕ) → String → List (String × ℕ)
  | [], w => [(w, 1)]
  | (k, c) :: m, w => if k = w then (k, c + 1) :: m else (k, c) :: insertTok m w

/-- The frequency dictionary built by the counting loop. -/
def freqMap (toks : List String) : List (String × ℕ) := toks.foldl insertTok []

/-- Numeric value of a digit string. -/
def digitsVal (l : List Char) : ℕ := l.foldl (fun a c => 10 * a + (c.toNat - 48)) 0

/-- The key is a canonical ECMAScript array index: a digit string without a
leading zero (except `"0"` itself) whose value is below `2^32 - 1`. -/
def isArrayIndexKey (s : String) : Bool :=
  !s.toList.isEmpty && s.toList.all Char.isDigit
    && (s == "0" || s.toList.head? != some '0')
    && decide (digitsVal s.toList < 4294967295)

/-- Property names inherited from `Object.prototype`; using one of them as a
token makes `wordFreq[token] || 0` read the inherited member, so the
plain-dictionary model holds only for token lists avoiding them. -/
def objectProtoPropNames : List String :=
  ["constructor", "hasOwnProperty", "isPrototypeOf", "propertyIsEnumerable",
    "toLocaleString", "toString", "valueOf", "__proto__", "__defineGetter__",
    "__defineSetter__", "__lookupGetter__", "__lookupSetter__"]

/-- `Object.entries(wordFreq)`: canonical array-index keys first in ascending
numeric order, then the remaining keys in insertion order (ECMA-262
OrdinaryOwnPropertyKeys). -/
def objectEntries (m : List (String × ℕ)) : List (String × ℕ) :=
  List.insertionSort (fun a b => digitsVal a.1.toList ≤ digitsVal b.1.toList)
      (m.filter (fun p => isArrayIndexKey p.1))
    ++ m.filter (fun p => !isArrayIndexKey p.1)

/-- `.sort(([,a],[,b]) => b - a)`: stable sort by count descending, modelled
by stable insertion sort. -/
def sortKeywordPairs (l : List (String × ℕ)) : List (String × ℕ) :=
  List.insertionSort (fun a b => b.2 ≤ a.2) l

/-- The `keywords` list of `extractKeywords` (`src/unnamed/part_000` lines
946-955): count frequencies, keep entries with count `> 1`, stable-sort by
count descending, truncate to 20. -/
def extractKeywordsBasic (text : String) : List (String × ℕ) :=
  (sortKeywordPairs
      ((objectEntries (freqMap (extractKeywordTokens text))).filter
        (fun p => 1 < p.2))).take 20

/-- The `sortedKeywords` list of `extractRealKeywords` (`src/server.js` lines
475-479), over the pooled token array `allKeywords`: the entries filter also
re-checks the key length. -/
def sortedKeywordsEnhanced (allKeywords : List String) : List (String × ℕ) :=
  (sortKeywordPairs
      ((objectEntries (freqMap allKeywords)).filter
        (fun p => 2 < p.1.length && 1 < p.2))).take 20

/-- Index of the first occurrence of `k` in `toks` (length of `toks` if
absent). -/
def firstIdx (toks : List String) (k : String) : ℕ :=
  match toks with
  | [] => 0
  | t :: ts => if t = k then 0 else firstIdx ts k + 1

/-- The boolean/numeric signals `analyzeRealTechnicalSEO`
(`src/unnamed/part_000` lines 529-795) derives from the fetched page before
computing its six sub-scores.  Each field is the result of one substring /
header / auxiliary-fetch check, in source order; `imagesAlt` holds, for each
`<img>` tag, whether it carries an `alt=` attribute. -/
structure TechSignals where
  robotsResolved : Bool
  robotsStatus200 : Bool
  robotsHasSitemapDirective : Bool
  sitemapResolved : Bool
  sitemapStatus200 : Bool
  sitemapHasUrlset : Bool
  hasMetaRobotsTag : Bool
  hasNoindexMarker : Bool
  hasNofollowMarker : Bool
  hasViewportTag : Bool
  hasDeviceWidth : Bool
  hasResponsiveMarker : Bool
  hasFlashMarker : Bool
  isHttps : Bool
  hstsHeader : Bool
  xFrameOptionsHeader : Bool
  xContentTypeOptionsHeader : Bool
  cspHeader : Bool
  htmlHasHttpSubstr : Bool
  passwordHeuristicOk : Bool
  titlePresent : Bool
  titleRawLe60 : Bool
  hasH1Tag : Bool
  hasMetaDescriptionTag : Bool
  hasLangAttr : Bool
  imagesAlt : List Bool
  hasCharsetAttr : Bool
  ogTitle : Bool
  ogDescription : Bool
  ogImage : Bool
  ogUrl : Bool
  hasTwitterCardTag : Bool
  hasCanonicalTag : Bool
  hasLdJsonMarker : Bool
  googleApiKeySet : Bool
  pageSpeedScore : ℕ

/-- Crawlability sub-score (base 50; robots.txt +15/+10; sitemap +15; meta
robots +10/+5; `Math.min(100, …)`). -/
def crawlabilityScore (s : TechSignals) : ℤ :=
  min 100 (50
    + (if s.robotsResolved && s.robotsStatus200 then
        15 + (if s.robotsHasSitemapDirective then 10 else 0) else 0)
    + (if s.sitemapResolved && s.sitemapStatus200 && s.sitemapHasUrlset then 15 else 0)
    + (if s.hasMetaRobotsTag then
        (if !s.hasNoindexMarker && !s.hasNofollowMarker then 10 else 0) else 5))

/-- Mobile-friendly sub-score (base 30; viewport +25/+15; responsive markers
+15; Flash −20; `Math.min(100, …)`). -/
def mobileFriendlyScore (s : TechSignals) : ℤ :=
  min 100 (30
    + (if s.hasViewportTag then 25 + (if s.hasDeviceWidth then 15 else 0) else 0)
    + (if s.hasResponsiveMarker then 15 else 0)
    - (if s.hasFlashMarker then 20 else 0))

/-- Security sub-score (HTTPS +30; four security headers; mixed content −10;
password heuristic +10; `Math.min(100, Math.max(0, …))`). -/
def securityScore (s : TechSignals) : ℤ :=
  min 100 (max 0 (
    (if s.isHttps then 30 else 0)
    + (if s.hstsHeader then 15 else 0)
    + (if s.xFrameOptionsHeader then 10 else 0)
    + (if s.xContentTypeOptionsHeader then 10 else 0)
    + (if s.cspHeader then 15 else 0)
    - (if s.isHttps && s.htmlHasHttpSubstr then 10 else 0)
    + (if s.passwordHeuristicOk then 10 else 0)))

/-- `(imagesWithAlt / images.length) * 100`, defaulting to 100 when the page
has no images. -/
def altTextRatioQ (s : TechSignals) : ℚ :=
  if s.imagesAlt.length = 0 then 100
  else ((s.imagesAlt.count true : ℚ) / (s.imagesAlt.length : ℚ)) * 100

/-- HTML-structure sub-score (base 20; title +15/+5; H1 +15; meta description
+15; lang +10; alt-text ratio +15/+8; `Math.min(100, …)`). -/
def htmlStructureScore (s : TechSignals) : ℤ :=
  min 100 (20
    + (if s.titlePresent then 15 + (if s.titleRawLe60 then 5 else 0) else 0)
    + (if s.hasH1Tag then 15 else 0)
    + (if s.hasMetaDescriptionTag then 15 else 0)
    + (if s.hasLangAttr then 10 else 0)
    + (if 80 ≤ altTextRatioQ s then 15
        else if 50 ≤ altTextRatioQ s then 8 else 0))

/-- Number of the four Open Graph tags present. -/
def ogTagCount (s : TechSignals) : ℕ :=
  (if s.ogTitle then 1 else 0) + (if s.ogDescription then 1 else 0)
    + (if s.ogImage then 1 else 0) + (if s.ogUrl then 1 else 0)

/-- Metadata sub-score (base 20; charset +10; 5 per OG tag; Twitter card +10;
canonical +15; JSON-LD +20; `Math.min(100, …)`). -/
def metaDataScore (s : TechSignals) : ℤ :=
  min 100 (20
    + (if s.hasCharsetAttr then 10 else 0)
    + (ogTagCount s : ℤ) * 5
    + (if s.hasTwitterCardTag then 10 else 0)
    + (if s.hasCanonicalTag then 15 else 0)
    + (if s.hasLdJsonMarker then 20 else 0))

/-- Site-speed sub-score: the external PageSpeed score when a Google API key
is configured, else the fixed neutral 50 (also the on-failure default of
`getPageSpeedInsights`). -/
def siteSpeedScore (s : TechSignals) : ℤ :=
  if s.googleApiKeySet then (s.pageSpeedScore : ℤ) else 50

/-- Sum of the six technical sub-scores. -/
def techScoreSum (s : TechSignals) : ℤ :=
  crawlabilityScore s + mobileFriendlyScore s + securityScore s
    + htmlStructureScore s + metaDataScore s + siteSpeedScore s

/-- `Math.round((crawlability + mobileFriendly + security + htmlStructure +
metaData + siteSpeed) / 6)` (`src/unnamed/part_000` lines 772-775). -/
def overallTechScore (s : TechSignals) : ℤ :=
  jsRound ((techScoreSum s : ℚ) / 6)

/-- Conditional singleton, for assembling the pushed issue/recommendation
lists in source order. -/
def pushIf (c : Bool) (s : String) : List String := if c then [s] else []

/-- The `issues` array of `analyzeRealTechnicalSEO`, pushed in source order. -/
def techIssues (s : TechSignals) : List String :=
  pushIf (!s.robotsResolved) "No robots.txt file found"
    ++ pushIf (!s.sitemapResolved) "No XML sitemap found"
    ++ pushIf (!s.hasViewportTag) "Missing viewport meta tag"
    ++ pushIf s.hasFlashMarker "Flash content detected (not mobile-friendly)"
    ++ pushIf (!s.isHttps) "Website not using HTTPS"
    ++ pushIf (s.isHttps && s.htmlHasHttpSubstr)
        "Mixed content detected (HTTP resources on HTTPS page)"
    ++ pushIf (!s.titlePresent) "Missing or empty title tag"
    ++ pushIf (!s.hasH1Tag) "Missing H1 heading"
    ++ pushIf (!s.hasMetaDescriptionTag) "Missing meta description"
    ++ (if 80 ≤ altTextRatioQ s ∨ 50 ≤ altTextRatioQ s then []
        else [toString (jsRound (100 - altTextRatioQ s))
          ++ "% of images missing alt text"])

/-- The `recommendations` array of `analyzeRealTechnicalSEO`, pushed in source
order and capped by `slice(0, 8)`. -/
def techRecommendations (s : TechSignals) : List String :=
  (pushIf (!s.robotsResolved) "Create a robots.txt file to guide search engine crawlers"
    ++ pushIf (!s.sitemapResolved) "Create an XML sitemap to help search engines discover your pages"
    ++ pushIf (!s.hasViewportTag) "Add viewport meta tag for mobile responsiveness"
    ++ pushIf (!s.isHttps) "Migrate to HTTPS for security and SEO benefits"
    ++ pushIf (!s.hasLangAttr) "Add language declaration to HTML tag"
    ++ pushIf (!s.hasCanonicalTag) "Add canonical URL to prevent duplicate content issues"
    ++ pushIf (!s.hasLdJsonMarker) "Add structured data (JSON-LD) for rich snippets"
    ++ pushIf (decide (crawlabilityScore s < 70))
        "Improve crawlability by adding robots.txt and XML sitemap"
    ++ pushIf (decide (mobileFriendlyScore s < 80))
        "Enhance mobile-friendliness with responsive design"
    ++ pushIf (decide (securityScore s < 80))
        "Strengthen security with HTTPS and security headers"
    ++ pushIf (decide (htmlStructureScore s < 80))
        "Fix HTML structure issues and add missing meta tags").take 8

/-- The `scores` object of a technical report. -/
structure TechScores where
  crawlability : ℤ
  mobileFriendly : ℤ
  siteSpeed : ℤ
  security : ℤ
  htmlStructure : ℤ
  metaData : ℤ
deriving DecidableEq

/-- Return shape of `analyzeRealTechnicalSEO`. -/
structure TechReport where
  overallScore : ℤ
  scores : TechScores
  issues : List String
  recommendations : List String
  errMsg : Option String

/-- `analyzeRealTechnicalSEO` as a function of the primary-fetch outcome: the
catch branch (`src/unnamed/part_000` lines 797-813) returns the all-zero
fallback with one explanatory issue and one recommendation. -/
def runTechnicalAnalysis : Except String TechSignals → TechReport
  | .error e =>
      { overallScore := 0
        scores := ⟨0, 0, 0, 0, 0, 0⟩
        issues := ["Unable to analyze website technical aspects"]
        recommendations := ["Website may be inaccessible or behind authentication"]
        errMsg := some e }
  | .ok s =>
      { overallScore := overallTechScore s
        scores := ⟨crawlabilityScore s, mobileFriendlyScore s, siteSpeedScore s,
          securityScore s, htmlStructureScore s, metaDataScore s⟩
        issues := techIssues s
        recommendations := techRecommendations s
        errMsg := none }

/-- Return shape of `checkBrokenLinks`. -/
structure LinkAuditReport where
  totalLinks : ℕ
  checkedLinks : ℕ
  brokenLinks : List BrokenLinkRecord
  internalLinks : ℕ
  externalLinks : ℕ
  deepLinkPercent : ℤ
  errMsg : Option String

/-- `checkBrokenLinks` (`src/unnamed/part_000` lines 816-910) as a function of
the primary-fetch outcome; a successful fetch yields the extracted links and
the probe outcomes of the first 20 of them.  The catch branch (lines 899-909)
returns the all-empty fallback. -/
def runCheckBrokenLinks (baseUrl : String) :
    Except String (List LinkRecord × List ProbeOutcome) → LinkAuditReport
  | .error e => ⟨0, 0, [], 0, 0, 0, some e⟩
  | .ok (links, outcomes) =>
      ⟨links.length, (links.take 20).length,
        brokenLinksOf ((links.take 20).zip outcomes),
        (links.filter (fun l => l.isInternal)).length,
        (links.filter (fun l => !l.isInternal)).length,
        deepLinkPercentGuarded links baseUrl, none⟩

/-- Return shape of `extractKeywords`. -/
structure KeywordReport where
  keywords : List (String × ℕ)
  wordCount : ℕ
  errMsg : Option String

/-- `extractKeywords` (`src/unnamed/part_000` lines 912-974) as a function of
the primary-fetch outcome (the payload is the derived `textContent`); the
catch branch (lines 965-973) returns the empty-keyword fallback. -/
def runExtractKeywords : Except String String → KeywordReport
  | .error e => ⟨[], 0, some e⟩
  | .ok text => ⟨extractKeywordsBasic text, (extractKeywordTokens text).length, none⟩

/-- Signals `analyzeGEOOptimization` (`src/unnamed/part_000` lines 978-1133)
derives from the cleaned markup before scoring its six factors: first
paragraph length and answer-pattern match, list/bullet counts, the four FAQ
regex matches, word count, heading and paragraph counts, and the number of
question-format headings. -/
structure GeoSignals where
  firstParagraphLen : ℕ
  firstParaHasDirectAnswer : Bool
  listCount : ℕ
  bulletPoints : ℕ
  faqPhraseMatch : Bool
  faqAbbrevMatch : Bool
  faqQuestionMarkerMatch : Bool
  faqAnswerMarkerMatch : Bool
  wordCount : ℕ
  headingCount : ℕ
  paragraphCount : ℕ
  questionHeadings : ℕ

/-- Direct-answers factor (budget 25). -/
def geoDirectAnswers (g : GeoSignals) : ℕ :=
  if 50 < g.firstParagraphLen then
    (if g.firstParaHasDirectAnswer then 25 else 15)
  else 0

/-- Structured-content factor (budget 20). -/
def geoStructuredContent (g : GeoSignals) : ℕ :=
  if 0 < g.listCount ∧ 3 < g.bulletPoints then 20
  else if 0 < g.listCount then 10 else 0

/-- FAQ-sections factor (5 per matched pattern, `Math.min(…, 20)`). -/
def geoFaqSections (g : GeoSignals) : ℕ :=
  min ((if g.faqPhraseMatch then 5 else 0) + (if g.faqAbbrevMatch then 5 else 0)
    + (if g.faqQuestionMarkerMatch then 5 else 0)
    + (if g.faqAnswerMarkerMatch then 5 else 0)) 20

/-- Comprehensiveness factor (budget 15, word-count tiers). -/
def geoComprehensiveness (g : GeoSignals) : ℕ :=
  if 1000 < g.wordCount then 15
  else if 500 < g.wordCount then 10
  else if 200 < g.wordCount then 5 else 0

/-- Readability factor (budget 10, heading/paragraph thresholds). -/
def geoReadability (g : GeoSignals) : ℕ :=
  if 3 ≤ g.headingCount ∧ 5 ≤ g.paragraphCount then 10
  else if 2 ≤ g.headingCount then 5 else 0

/-- Question-format factor (budget 10). -/
def geoQuestionFormat (g : GeoSignals) : ℕ :=
  if 2 ≤ g.questionHeadings then 10
  else if 1 ≤ g.questionHeadings then 5 else 0

/-- The `factors` object values, in source field order. -/
def geoFactorList (g : GeoSignals) : List ℕ :=
  [geoDirectAnswers g, geoStructuredContent g, geoFaqSections g,
    geoComprehensiveness g, geoReadability g, geoQuestionFormat g]

/-- `Object.values(factors).reduce((sum, score) => sum + score, 0)`
(`src/unnamed/part_000` line 1098); the returned `geoScore` is
`Math.round` of this already-integral value. -/
def geoTotalScore (g : GeoSignals) : ℕ := (geoFactorList g).foldl (· + ·) 0

/-- The fields of the merged `results` object that the three
`calculateOverallScore` variants read. -/
structure OverallInputs where
  pageSpeed : ℕ
  hasTitle : Bool
  hasMetaDescriptionFlag : Bool
  hasH1Flag : Bool
  hasSchemaMarkupFlag : Bool
  hasSSL : Bool
  brokenLinkCount : ℕ
  extractedKeywordCount : ℕ
  recommendationCount : ℕ

/-- `if (results.scores.pageSpeed) score += (pageSpeed / 100) * 25` — the
truthiness test skips the term when the score is 0. -/
def speedTermQ (n : ℕ) : ℚ := if n ≠ 0 then ((n : ℚ) / 100) * 25 else 0

/-- `Math.min(100, Math.max(0, Math.round(score)))`. -/
def clampScore (q : ℚ) : ℤ := min 100 (max 0 (jsRound q))

/-- `calculateOverallScore` of `src/server.js` lines 625-634 (base 30, speed
term, +8 title, +8 meta description, +8 SSL, +10 zero broken links, +5 for
more than five keywords). -/
def calculateOverallScoreEnhanced (r : OverallInputs) : ℤ :=
  clampScore (30 + speedTermQ r.pageSpeed
    + (if r.hasTitle then 8 else 0)
    + (if r.hasMetaDescriptionFlag then 8 else 0)
    + (if r.hasSSL then 8 else 0)
    + (if r.brokenLinkCount = 0 then 10 else 0)
    + (if 5 < r.extractedKeywordCount then 5 else 0))

/-- `calculateOverallScore` of `src/server.js` lines 1339-1358 (base 30, speed
term, +8 title, +8 meta description, +6 H1, +10 schema markup, +8 SSL, +15 for
at least three recommendations). -/
def calculateOverallScoreFull (r : OverallInputs) : ℤ :=
  clampScore (30 + speedTermQ r.pageSpeed
    + (if r.hasTitle then 8 else 0)
    + (if r.hasMetaDescriptionFlag then 8 else 0)
    + (if r.hasH1Flag then 6 else 0)
    + (if r.hasSchemaMarkupFlag then 10 else 0)
    + (if r.hasSSL then 8 else 0)
    + (if 3 ≤ r.recommendationCount then 15 else 0))

/-- `calculateOverallScore` of `src/unnamed/part_000` lines 1256-1264 (base
30, speed term, +8 title, +8 meta description, +8 SSL, +10 zero broken
links). -/
def calculateOverallScoreBasic (r : OverallInputs) : ℤ :=
  clampScore (30 + speedTermQ r.pageSpeed
    + (if r.hasTitle then 8 else 0)
    + (if r.hasMetaDescriptionFlag then 8 else 0)
    + (if r.hasSSL then 8 else 0)
    + (if r.brokenLinkCount = 0 then 10 else 0))

theorem jsRound_ge {n : ℤ} {q : ℚ} (h : (n : ℚ) ≤ q) : n ≤ jsRound q := by
  unfold jsRound
  exact Int.le_floor.2 (by linarith)

theorem jsRound_le {n : ℤ} {q : ℚ} (h : q ≤ (n : ℚ)) : jsRound q ≤ n := by
  unfold jsRound
  have h2 : Int.floor (q + 1 / 2) < n + 1 := Int.floor_lt.2 (by push_cast; linarith)
  omega

theorem deepLinkShare_nonneg (links : List LinkRecord) (baseUrl : String) :
    0 ≤ deepLinkShare links baseUrl := by
  unfold deepLinkShare
  positivity

theorem deepLinkShare_le_100 (links : List LinkRecord) (baseUrl : String)
    (h : links ≠ []) : deepLinkShare links baseUrl ≤ 100 := by
  unfold deepLinkShare
  have hlen : 0 < links.length := List.length_pos.2 h
  have hle := List.length_filter_le (fun l => l.isInternal && l.url != baseUrl) links
  have h1 : ((links.filter (fun l => l.isInternal && l.url != baseUrl)).length : ℚ)
      / (links.length : ℚ) ≤ 1 := by
    rw [div_le_one (by exact_mod_cast hlen)]
    exact_mod_cast hle
  nlinarith [h1]

/-- C1: the guarded `deepLinkRatio` of `checkBrokenLinks` is an integer in
[0,100] and is 0 on a page without links, but the `analyzeBrokenLinks`
variant divides by the link count with no guard, so on a page with zero
extracted links it yields `NaN` (modelled `none`) instead of 0; with at
least one link it does stay in [0,100]. -/
theorem C1_deepLink :
    deepLinkPercentEnhanced [] "https://example.com/" = none ∧
    deepLinkPercentGuarded [] "https://example.com/" = 0 ∧
    (∀ (links : List LinkRecord) (baseUrl : String),
      0 ≤ deepLinkPercentGuarded links baseUrl ∧
        deepLinkPercentGuarded links baseUrl ≤ 100) ∧
    (∀ (links : List LinkRecord) (baseUrl : String), links ≠ [] →
      ∃ v, deepLinkPercentEnhanced links baseUrl = some v ∧ 0 ≤ v ∧ v ≤ 100) := by
  refine ⟨rfl, rfl, ?_, ?_⟩
  · intro links baseUrl
    unfold deepLinkPercentGuarded
    split
    · exact ⟨le_refl 0, by norm_num⟩
    · rename_i hne
      have h : links ≠ [] := fun he => hne (by simp [he])
      constructor
      · exact jsRound_ge (by exact_mod_cast deepLinkShare_nonneg links baseUrl)
      · exact jsRound_le (by exact_mod_cast deepLinkShare_le_100 links baseUrl h)
  · intro links baseUrl h
    refine ⟨jsRound (deepLinkShare links baseUrl), ?_, ?_, ?_⟩
    · unfold deepLinkPercentEnhanced
      rw [if_neg (by simp [h])]
    · exact jsRound_ge (by exact_mod_cast deepLinkShare_nonneg links baseUrl)
    · exact jsRound_le (by exact_mod_cast deepLinkShare_le_100 links baseUrl h)

theorem C1_deepLink_w :
    ([sampleLink] ≠ ([] : List LinkRecord)) ∧
    (∃ v, deepLinkPercentEnhanced [sampleLink] "https://other.example/" = some v ∧
      0 ≤ v ∧ v ≤ 100) :=
  ⟨by decide, C1_deepLink.2.2.2 [sampleLink] "https://other.example/" (by decide)⟩

theorem checkLink_eq (link : LinkRecord) (o : ProbeOutcome) :
    checkLink link o
      = if probeBroken o then some (brokenRecordOf link o) else none := by
  cases o with
  | httpResponse s =>
      by_cases h5 : s < 500
      · have hax : axiosHeadLenient (.httpResponse s) = .ok s := by
          simp [axiosHeadLenient, h5]
        by_cases h4 : 400 ≤ s
        · simp [checkLink, hax, probeBroken, brokenRecordOf, h4, h5]
        · simp [checkLink, hax, probeBroken, brokenRecordOf, h4]
      · have hax : axiosHeadLenient (.httpResponse s)
            = .error (some "ERR_BAD_RESPONSE") := by
          simp [axiosHeadLenient, h5]
        have h4 : 400 ≤ s := by omega
        simp [checkLink, hax, probeBroken, brokenRecordOf, h4, h5]
  | transportFailure c =>
      simp [checkLink, axiosHeadLenient, probeBroken, brokenRecordOf]

theorem brokenLinksOf_eq (probed : List (LinkRecord × ProbeOutcome)) :
    brokenLinksOf probed
      = (probed.filter (fun p => probeBroken p.2)).map
          (fun p => brokenRecordOf p.1 p.2) := by
  induction probed with
  | nil => rfl
  | cons p ps ih =>
      by_cases h : probeBroken p.2
      · simp [brokenLinksOf, List.filterMap_cons, List.filter_cons, checkLink_eq, h] at ih ⊢
        exact ih
      · simp [brokenLinksOf, List.filterMap_cons, List.filter_cons, checkLink_eq, h] at ih ⊢
        exact ih

/-- C3: a probed link contributes a broken-link record exactly when its probe
resolves to an HTTP status ≥ 400 or fails at transport level, and the
accumulated `brokenLinks` array consists exactly of the records of those
probed links, in probe order. -/
theorem C3_broken_iff :
    (∀ (link : LinkRecord) (o : ProbeOutcome),
      (checkLink link o).isSome = true ↔ probeBroken o = true) ∧
    (∀ probed : List (LinkRecord × ProbeOutcome),
      brokenLinksOf probed
        = (probed.filter (fun p => probeBroken p.2)).map
            (fun p => brokenRecordOf p.1 p.2)) := by
  constructor
  · intro link o
    rw [checkLink_eq]
    by_cases h : probeBroken o <;> simp [h]
  · exact brokenLinksOf_eq

/-- C4 counterexample: a probe that returns an HTTP 500 response produces a
broken-link record whose `status` is 0, not 500 — `validateStatus: s < 500`
makes the driver reject 5xx responses, which land in the same catch branch as
transport failures. -/
theorem C4_counterexample :
    (checkLink sampleLink (.httpResponse 500)).isSome = true ∧
    Option.map BrokenLinkRecord.status (checkLink sampleLink (.httpResponse 500))
      ≠ some 500 ∧
    Option.map BrokenLinkRecord.status (checkLink sampleLink (.httpResponse 500))
      = some 0 := by
  decide

/-- C4 amended: a 4xx response's record carries that response's status, but a
5xx response is rejected by the `validateStatus < 500` predicate and recorded
with status 0, exactly like a transport-level failure — so status 0 marks
both transport failures and 5xx responses. -/
theorem C4_status_amended :
    (∀ (link : LinkRecord) (s : ℕ), 400 ≤ s → s < 500 →
      checkLink link (.httpResponse s)
        = some ⟨link.url, s, link.text, link.isInternal, "HTTP " ++ toString s⟩) ∧
    (∀ (link : LinkRecord) (s : ℕ), 500 ≤ s →
      Option.map BrokenLinkRecord.status (checkLink link (.httpResponse s))
        = some 0) ∧
    (∀ (link : LinkRecord) (c : Option String),
      Option.map BrokenLinkRecord.status (checkLink link (.transportFailure c))
        = some 0) := by
  refine ⟨?_, ?_, ?_⟩
  · intro link s h4 h5
    have hax : axiosHeadLenient (.httpResponse s) = .ok s := by
      simp [axiosHeadLenient, h5]
    simp [checkLink, hax, h4]
  · intro link s h5
    have hax : axiosHeadLenient (.httpResponse s)
        = .error (some "ERR_BAD_RESPONSE") := by
      simp [axiosHeadLenient]
      omega
    simp [checkLink, hax]
  · intro link c
    simp [checkLink, axiosHeadLenient]

theorem C4_status_w :
    ((400 : ℕ) ≤ 404 ∧ (404 : ℕ) < 500) ∧
    checkLink sampleLink (.httpResponse 404)
      = some ⟨sampleLink.url, 404, sampleLink.text, sampleLink.isInternal,
          "HTTP " ++ toString 404⟩ :=
  ⟨⟨by decide, by decide⟩, C4_status_amended.1 sampleLink 404 (by decide) (by decide)⟩

/-- C5 counterexample: the internal/external classification is substring
containment, not hostname equality — a link resolved to
`https://badexample.com/` is classified internal against base hostname
`example.com` although the hostnames differ. -/
theorem C5_counterexample :
    linkIsInternal "https://badexample.com/" "example.com" = true ∧
    urlHostname "https://badexample.com/" = "badexample.com" ∧
    ¬ ("badexample.com" = "example.com") := by
  decide

/-- C5 amended: `isInternal` is true iff the resolved URL string contains the
base hostname as a substring (`String.includes`); hostname equality implies
the flag (a serialized URL contains its own hostname), but not conversely. -/
theorem C5_internal_amended (baseHost href : String)
    (h : strIncl href (urlHostname href) = true) :
    linkIsInternal href baseHost = strIncl href baseHost ∧
    (urlHostname href = baseHost → linkIsInternal href baseHost = true) := by
  refine ⟨rfl, fun he => ?_⟩
  unfold linkIsInternal
  rw [← he]
  exact h

theorem C5_internal_w :
    (strIncl "https://example.com/page" (urlHostname "https://example.com/page")
        = true) ∧
    (urlHostname "https://example.com/page" = "example.com" →
      linkIsInternal "https://example.com/page" "example.com" = true) :=
  ⟨by decide,
    (C5_internal_amended "example.com" "https://example.com/page" (by decide)).2⟩

/-- C6 counterexample: the regex-based `checkBrokenLinks` extraction skips
only `#` and `mailto:` targets, so a `tel:` anchor does yield a LinkRecord
there, while the cheerio-based `analyzeBrokenLinks` extraction skips it. -/
theorem C6_counterexample :
    (mkLinkBasic exampleBase "tel:+15551234567" "Call").isSome = true ∧
    mkLinkEnhanced exampleBase "tel:+15551234567" "Call" = none := by
  decide

/-- C6 amended: fragment-only and `mailto:` targets produce no LinkRecord in
any link-audit variant; `tel:` targets are excluded only by the cheerio-based
`analyzeBrokenLinks` variant (the regex-based `checkBrokenLinks` variants let
them through, since a `tel:` URI parses as an absolute URL). -/
theorem C6_skip_amended :
    (∀ (base : BaseUrl) (href text : String),
      strStarts href "#" = true ∨ strStarts href "mailto:" = true →
      mkLinkEnhanced base href text = none ∧ mkLinkBasic base href text = none) ∧
    (∀ (base : BaseUrl) (href text : String),
      strStarts href "tel:" = true → mkLinkEnhanced base href text = none) := by
  constructor
  · intro base href text h
    constructor
    · unfold mkLinkEnhanced
      rcases h with h | h <;> simp [h]
    · unfold mkLinkBasic
      rcases h with h | h <;> simp [h]
  · intro base href text h
    unfold mkLinkEnhanced
    simp [h]

theorem C6_skip_w :
    (strStarts "#top" "#" = true) ∧
    (mkLinkEnhanced exampleBase "#top" "x" = none ∧
      mkLinkBasic exampleBase "#top" "x" = none) :=
  ⟨by decide, C6_skip_amended.1 exampleBase "#top" "x" (Or.inl (by decide))⟩

theorem crawlabilityScore_range (s : TechSignals) :
    0 ≤ crawlabilityScore s ∧ crawlabilityScore s ≤ 100 := by
  unfold crawlabilityScore
  split_ifs <;> omega

theorem mobileFriendlyScore_range (s : TechSignals) :
    0 ≤ mobileFriendlyScore s ∧ mobileFriendlyScore s ≤ 100 := by
  unfold mobileFriendlyScore
  split_ifs <;> omega

theorem securityScore_range (s : TechSignals) :
    0 ≤ securityScore s ∧ securityScore s ≤ 100 := by
  unfold securityScore
  split_ifs <;> omega

theorem htmlStructureScore_range (s : TechSignals) :
    0 ≤ htmlStructureScore s ∧ htmlStructureScore s ≤ 100 := by
  unfold htmlStructureScore
  split_ifs <;> omega

theorem metaDataScore_range (s : TechSignals) :
    0 ≤ metaDataScore s ∧ metaDataScore s ≤ 100 := by
  unfold metaDataScore ogTagCount
  split_ifs <;> push_cast <;> omega

theorem siteSpeedScore_range (s : TechSignals) (hspeed : s.pageSpeedScore ≤ 100) :
    0 ≤ siteSpeedScore s ∧ siteSpeedScore s ≤ 100 := by
  unfold siteSpeedScore
  split <;> omega

/-- C7: each of the six technical sub-scores stays in [0,100] after all
additive and subtractive adjustments (for `siteSpeed`, granted the external
page-speed capability returns a score in [0,100] per its interface contract),
and the overall technical score is `Math.round` of the unweighted mean of
exactly those six sub-scores, itself in [0,100]. -/
theorem C7_technical (s : TechSignals) (hspeed : s.pageSpeedScore ≤ 100) :
    (0 ≤ crawlabilityScore s ∧ crawlabilityScore s ≤ 100) ∧
    (0 ≤ mobileFriendlyScore s ∧ mobileFriendlyScore s ≤ 100) ∧
    (0 ≤ siteSpeedScore s ∧ siteSpeedScore s ≤ 100) ∧
    (0 ≤ securityScore s ∧ securityScore s ≤ 100) ∧
    (0 ≤ htmlStructureScore s ∧ htmlStructureScore s ≤ 100) ∧
    (0 ≤ metaDataScore s ∧ metaDataScore s ≤ 100) ∧
    (runTechnicalAnalysis (.ok s)).overallScore
      = jsRound (((crawlabilityScore s + mobileFriendlyScore s + securityScore s
          + htmlStructureScore s + metaDataScore s + siteSpeedScore s : ℤ) : ℚ) / 6) ∧
    (0 ≤ overallTechScore s ∧ overallTechScore s ≤ 100) := by
  have h1 := crawlabilityScore_range s
  have h2 := mobileFriendlyScore_range s
  have h3 := siteSpeedScore_range s hspeed
  have h4 := securityScore_range s
  have h5 := htmlStructureScore_range s
  have h6 := metaDataScore_range s
  have hsum1 : 0 ≤ techScoreSum s := by
    unfold techScoreSum
    linarith [h1.1, h2.1, h3.1, h4.1, h5.1, h6.1]
  have hsum2 : techScoreSum s ≤ 600 := by
    unfold techScoreSum
    linarith [h1.2, h2.2, h3.2, h4.2, h5.2, h6.2]
  refine ⟨h1, h2, h3, h4, h5, h6, rfl, ?_, ?_⟩
  · apply jsRound_ge
    push_cast
    apply div_nonneg _ (by norm_num)
    exact_mod_cast hsum1
  · apply jsRound_le
    push_cast
    rw [div_le_iff₀ (by norm_num : (0 : ℚ) < 6)]
    norm_num
    exact_mod_cast hsum2

def sampleTechSignals : TechSignals :=
  { robotsResolved := true, robotsStatus200 := true,
    robotsHasSitemapDirective := false, sitemapResolved := false,
    sitemapStatus200 := false, sitemapHasUrlset := false,
    hasMetaRobotsTag := false, hasNoindexMarker := false,
    hasNofollowMarker := false, hasViewportTag := true, hasDeviceWidth := true,
    hasResponsiveMarker := false, hasFlashMarker := false, isHttps := true,
    hstsHeader := false, xFrameOptionsHeader := false,
    xContentTypeOptionsHeader := false, cspHeader := false,
    htmlHasHttpSubstr := false, passwordHeuristicOk := true,
    titlePresent := true, titleRawLe60 := true, hasH1Tag := true,
    hasMetaDescriptionTag := true, hasLangAttr := false,
    imagesAlt := [true, false], hasCharsetAttr := true, ogTitle := false,
    ogDescription := false, ogImage := false, ogUrl := false,
    hasTwitterCardTag := false, hasCanonicalTag := false,
    hasLdJsonMarker := false, googleApiKeySet := false, pageSpeedScore := 50 }

theorem C7_technical_w :
    sampleTechSignals.pageSpeedScore ≤ 100 ∧
    (0 ≤ overallTechScore sampleTechSignals ∧
      overallTechScore sampleTechSignals ≤ 100) :=
  ⟨by decide, (C7_technical sampleTechSignals (by decide)).2.2.2.2.2.2.2⟩

/-- C8: the GEO total is the exact sum of the six factor scores, each factor
stays within its budget (25/20/20/15/10/10), and since the budgets sum to 100
the total is in [0,100]. -/
theorem C8_geo (g : GeoSignals) :
    geoTotalScore g
      = geoDirectAnswers g + geoStructuredContent g + geoFaqSections g
        + geoComprehensiveness g + geoReadability g + geoQuestionFormat g ∧
    geoDirectAnswers g ≤ 25 ∧ geoStructuredContent g ≤ 20 ∧
    geoFaqSections g ≤ 20 ∧ geoComprehensiveness g ≤ 15 ∧
    geoReadability g ≤ 10 ∧ geoQuestionFormat g ≤ 10 ∧
    geoTotalScore g ≤ 100 := by
  have hsum : geoTotalScore g
      = geoDirectAnswers g + geoStructuredContent g + geoFaqSections g
        + geoComprehensiveness g + geoReadability g + geoQuestionFormat g := by
    simp [geoTotalScore, geoFactorList, List.foldl]
  have hA : geoDirectAnswers g ≤ 25 := by
    unfold geoDirectAnswers
    split_ifs <;> omega
  have hB : geoStructuredContent g ≤ 20 := by
    unfold geoStructuredContent
    split_ifs <;> omega
  have hC : geoFaqSections g ≤ 20 := by
    unfold geoFaqSections
    split_ifs <;> omega
  have hD : geoComprehensiveness g ≤ 15 := by
    unfold geoComprehensiveness
    split_ifs <;> omega
  have hE : geoReadability g ≤ 10 := by
    unfold geoReadability
    split_ifs <;> omega
  have hF : geoQuestionFormat g ≤ 10 := by
    unfold geoQuestionFormat
    split_ifs <;> omega
  exact ⟨hsum, hA, hB, hC, hD, hE, hF, by omega⟩

/-- C9: when the primary page fetch fails, the technical analyzer returns the
total-failure fallback (all six sub-scores 0, overall 0, exactly one
explanatory issue and one recommendation) while the broken-link and keyword
analyzers return empty `brokenLinks` and empty `keywords` instead of
throwing. -/
theorem C9_fetch_failure_fallback (e : String) (baseUrl : String) :
    (runTechnicalAnalysis (.error e)).overallScore = 0 ∧
    (runTechnicalAnalysis (.error e)).scores = ⟨0, 0, 0, 0, 0, 0⟩ ∧
    (runTechnicalAnalysis (.error e)).issues
      = ["Unable to analyze website technical aspects"] ∧
    (runTechnicalAnalysis (.error e)).issues.length = 1 ∧
    (runTechnicalAnalysis (.error e)).recommendations.length = 1 ∧
    (runCheckBrokenLinks baseUrl (.error e)).brokenLinks = [] ∧
    (runExtractKeywords (.error e)).keywords = [] :=
  ⟨rfl, rfl, rfl, rfl, rfl, rfl, rfl⟩

theorem speedTermQ_nonneg (n : ℕ) : 0 ≤ speedTermQ n := by
  unfold speedTermQ
  split
  · positivity
  · exact le_refl 0

theorem clampScore_range {q : ℚ} (h : (30 : ℚ) ≤ q) :
    30 ≤ clampScore q ∧ clampScore q ≤ 100 := by
  unfold clampScore
  have h30 : (30 : ℤ) ≤ jsRound q := jsRound_ge (by push_cast; linarith)
  omega

/-- C10: each of the three `calculateOverallScore` variants starts from a base
of 30 and only ever adds non-negative bonuses before rounding and clamping,
so the aggregate overall score always lies in [30,100]. -/
theorem C10_overall_range (r : OverallInputs) :
    (30 ≤ calculateOverallScoreEnhanced r ∧ calculateOverallScoreEnhanced r ≤ 100) ∧
    (30 ≤ calculateOverallScoreFull r ∧ calculateOverallScoreFull r ≤ 100) ∧
    (30 ≤ calculateOverallScoreBasic r ∧ calculateOverallScoreBasic r ≤ 100) := by
  have hs := speedTermQ_nonneg r.pageSpeed
  refine ⟨clampScore_range ?_, clampScore_range ?_, clampScore_range ?_⟩ <;>
    split_ifs <;> linarith

theorem insertTok_keys (m : List (String × ℕ)) (w : String) :
    (insertTok m w).map Prod.fst
      = if w ∈ m.map Prod.fst then m.map Prod.fst
        else m.map Prod.fst ++ [w] := by
  induction m with
  | nil => simp [insertTok]
  | cons p m ih =>
      obtain ⟨k, c⟩ := p
      by_cases hkw : k = w
      · subst hkw
        simp [insertTok]
      · simp only [insertTok, if_neg hkw, List.map_cons, ih]
        by_cases hw : w ∈ m.map Prod.fst
        · simp [hw, Ne.symm hkw]
        · simp [hw, Ne.symm hkw]

theorem keys_foldl_insertTok {k : String} :
    ∀ (rem : List String) (m : List (String × ℕ)),
      k ∈ ((rem.foldl insertTok m).map Prod.fst) →
      k ∈ m.map Prod.fst ∨ k ∈ rem := by
  intro rem
  induction rem with
  | nil =>
      intro m h
      exact Or.inl (by simpa using h)
  | cons t rem ih =>
      intro m h
      simp only [List.foldl_cons] at h
      rcases ih (insertTok m t) h with h1 | h1
      · rw [insertTok_keys] at h1
        by_cases ht : t ∈ m.map Prod.fst
        · rw [if_pos ht] at h1
          exact Or.inl h1
        · rw [if_neg ht] at h1
          rcases List.mem_append.1 h1 with h2 | h2
          · exact Or.inl h2
          · simp at h2
            subst h2
            exact Or.inr (List.mem_cons_self _ _)
      · exact Or.inr (List.mem_cons_of_mem _ h1)

theorem firstIdx_lt_of_mem {k : String} {pre : List String} (h : k ∈ pre)
    (rest : List String) : firstIdx (pre ++ rest) k < pre.length := by
  induction pre with
  | nil => simp at h
  | cons a pre ih =>
      rw [List.cons_append]
      by_cases hak : a = k
      · simp [firstIdx, hak]
      · simp only [firstIdx, if_neg hak, List.length_cons]
        have h' : k ∈ pre := by
          rcases List.mem_cons.1 h with h1 | h1
          · exact absurd h1.symm hak
          · exact h1
        have := ih h'
        omega

theorem firstIdx_append_self {k : String} {pre : List String} (h : k ∉ pre)
    (rest : List String) : firstIdx (pre ++ k :: rest) k = pre.length := by
  induction pre with
  | nil => simp [firstIdx]
  | cons a pre ih =>
      have hak : ¬ a = k := by
        intro he
        subst he
        exact h (List.mem_cons_self _ _)
      rw [List.cons_append]
      simp only [firstIdx, if_neg hak, List.length_cons]
      have h' : k ∉ pre := fun hk => h (List.mem_cons_of_mem _ hk)
      rw [ih h']

theorem freqMap_keys_pairwise_aux (toks : List String) :
    ∀ (rem pre : List String) (m : List (String × ℕ)),
      toks = pre ++ rem →
      (∀ k, k ∈ m.map Prod.fst ↔ k ∈ pre) →
      (m.map Prod.fst).Pairwise (fun a b => firstIdx toks a < firstIdx toks b) →
      ((rem.foldl insertTok m).map Prod.fst).Pairwise
        (fun a b => firstIdx toks a < firstIdx toks b) := by
  intro rem
  induction rem with
  | nil =>
      intro pre m _ _ hp
      simpa using hp
  | cons t rem ih =>
      intro pre m heq hmem hp
      simp only [List.foldl_cons]
      by_cases ht : t ∈ m.map Prod.fst
      · have hkeys : (insertTok m t).map Prod.fst = m.map Prod.fst := by
          rw [insertTok_keys, if_pos ht]
        apply ih (pre ++ [t]) (insertTok m t)
        · rw [heq, List.append_assoc]
          rfl
        · intro k
          rw [hkeys, hmem k]
          constructor
          · intro hk
            exact List.mem_append_left _ hk
          · intro hk
            rcases List.mem_append.1 hk with h1 | h1
            · exact h1
            · simp at h1
              subst h1
              exact (hmem k).1 ht
        · rw [hkeys]
          exact hp
      · have hkeys : (insertTok m t).map Prod.fst = m.map Prod.fst ++ [t] := by
          rw [insertTok_keys, if_neg ht]
        have htpre : t ∉ pre := fun hh => ht ((hmem t).2 hh)
        apply ih (pre ++ [t]) (insertTok m t)
        · rw [heq, List.append_assoc]
          rfl
        · intro k
          rw [hkeys]
          constructor
          · intro hk
            rcases List.mem_append.1 hk with h1 | h1
            · exact List.mem_append_left _ ((hmem k).1 h1)
            · exact List.mem_append_right _ h1
          · intro hk
            rcases List.mem_append.1 hk with h1 | h1
            · exact List.mem_append_left _ ((hmem k).2 h1)
            · exact List.mem_append_right _ h1
        · rw [hkeys, List.pairwise_append]
          refine ⟨hp, List.pairwise_singleton _ _, ?_⟩
          intro a ha b hb
          simp at hb
          subst hb
          have ha' : a ∈ pre := (hmem a).1 ha
          have h1 : firstIdx toks a < pre.length := by
            rw [heq]
            exact firstIdx_lt_of_mem ha' _
          have h2 : firstIdx toks b = pre.length := by
            rw [heq]
            exact firstIdx_append_self htpre _
          omega

theorem freqMap_keys_pairwise (toks : List String) :
    ((freqMap toks).map Prod.fst).Pairwise
      (fun a b => firstIdx toks a < firstIdx toks b) := by
  apply freqMap_keys_pairwise_aux toks toks [] []
  · rfl
  · intro k
    simp
  · exact List.Pairwise.nil

theorem orderedInsert_pairwise_keyword {P : String × ℕ → String × ℕ → Prop}
    (x : String × ℕ) :
    ∀ l : List (String × ℕ),
      l.Pairwise (fun a b => b.2 ≤ a.2 ∧ (b.2 = a.2 → P a b)) →
      (∀ y ∈ l, P x y) →
      (List.orderedInsert (fun a b => b.2 ≤ a.2) x l).Pairwise
        (fun a b => b.2 ≤ a.2 ∧ (b.2 = a.2 → P a b)) := by
  intro l
  induction l with
  | nil =>
      intro _ _
      simp [List.orderedInsert]
  | cons y ys ih =>
      intro hl hx
      rw [List.orderedInsert]
      by_cases hr : y.2 ≤ x.2
      · rw [if_pos hr]
        constructor
        · intro z hz
          rcases List.mem_cons.1 hz with hz | hz
          · subst hz
            exact ⟨hr, fun _ => hx _ (List.mem_cons_self _ _)⟩
          · have hyz := List.rel_of_pairwise_cons hl hz
            exact ⟨le_trans hyz.1 hr, fun _ => hx _ (List.mem_cons_of_mem _ hz)⟩
        · exact hl
      · rw [if_neg hr]
        have hxy : x.2 < y.2 := Nat.lt_of_not_le hr
        constructor
        · intro z hz
          rcases (List.mem_orderedInsert
              (fun a b : String × ℕ => b.2 ≤ a.2)).1 hz with hz | hz
          · subst hz
            exact ⟨le_of_lt hxy, fun he => absurd he (Nat.ne_of_lt hxy)⟩
          · exact List.rel_of_pairwise_cons hl hz
        · exact ih (List.pairwise_cons.1 hl).2
            (fun z hz => hx z (List.mem_cons_of_mem _ hz))

theorem sortKeywordPairs_pairwise {P : String × ℕ → String × ℕ → Prop} :
    ∀ l : List (String × ℕ), l.Pairwise P →
      (sortKeywordPairs l).Pairwise
        (fun a b => b.2 ≤ a.2 ∧ (b.2 = a.2 → P a b)) := by
  intro l
  induction l with
  | nil =>
      intro _
      exact List.Pairwise.nil
  | cons x xs ih =>
      intro hl
      have h1 := ih (List.pairwise_cons.1 hl).2
      have h2 : ∀ y ∈ sortKeywordPairs xs, P x y := by
        intro y hy
        exact (List.pairwise_cons.1 hl).1 y
          ((List.mem_insertionSort _).1 hy)
      exact orderedInsert_pairwise_keyword x _ h1 h2

theorem pairwise_trivial_keyword (l : List (String × ℕ)) :
    l.Pairwise (fun _ _ => True) := by
  induction l with
  | nil => exact List.Pairwise.nil
  | cons x xs ih => exact List.Pairwise.cons (fun _ _ => trivial) ih

theorem sortKeywordPairs_desc (l : List (String × ℕ)) :
    (sortKeywordPairs l).Pairwise (fun a b => b.2 ≤ a.2) :=
  (sortKeywordPairs_pairwise l (pairwise_trivial_keyword l)).imp
    (fun h => h.1)

theorem mem_objectEntries {m : List (String × ℕ)} {p : String × ℕ}
    (h : p ∈ objectEntries m) : p ∈ m := by
  unfold objectEntries at h
  rcases List.mem_append.1 h with h1 | h1
  · exact List.mem_of_mem_filter ((List.mem_insertionSort _).1 h1)
  · exact List.mem_of_mem_filter h1

theorem objectEntries_eq_self (m : List (String × ℕ))
    (h : ∀ p ∈ m, isArrayIndexKey p.1 = false) : objectEntries m = m := by
  unfold objectEntries
  have h1 : m.filter (fun p => isArrayIndexKey p.1) = [] := by
    rw [List.filter_eq_nil_iff]
    intro p hp
    simp [h p hp]
  have h2 : m.filter (fun p => !isArrayIndexKey p.1) = m := by
    rw [List.filter_eq_self]
    intro p hp
    simp [h p hp]
  rw [h1, h2]
  simp [List.insertionSort]

theorem extractKeywordTokens_props {text : String} {w : String}
    (h : w ∈ extractKeywordTokens text) :
    2 < w.length ∧ isStopWord w = false := by
  unfold extractKeywordTokens at h
  have h2 := (List.mem_filter.1 h).2
  simp only [Bool.and_eq_true, decide_eq_true_eq, Bool.not_eq_true'] at h2
  exact h2

theorem key_mem_toks_of_mem_freqMap {toks : List String} {p : String × ℕ}
    (h : p ∈ freqMap toks) : p.1 ∈ toks := by
  have h5 : p.1 ∈ (freqMap toks).map Prod.fst := List.mem_map_of_mem _ h
  rcases keys_foldl_insertTok toks [] h5 with h6 | h6
  · simp at h6
  · exact h6

theorem mem_extractKeywordsBasic {text : String} {p : String × ℕ}
    (h : p ∈ extractKeywordsBasic text) :
    1 < p.2 ∧ p.1 ∈ extractKeywordTokens text := by
  unfold extractKeywordsBasic at h
  have h1 := List.take_subset _ _ h
  unfold sortKeywordPairs at h1
  have h2 := (List.mem_insertionSort _).1 h1
  have h3 := List.mem_filter.1 h2
  refine ⟨by simpa using h3.2, ?_⟩
  exact key_mem_toks_of_mem_freqMap (mem_objectEntries h3.1)

theorem mem_sortedKeywordsEnhanced {toks : List String} {p : String × ℕ}
    (h : p ∈ sortedKeywordsEnhanced toks) : 2 < p.1.length ∧ 1 < p.2 := by
  unfold sortedKeywordsEnhanced at h
  have h1 := List.take_subset _ _ h
  unfold sortKeywordPairs at h1
  have h2 := (List.mem_insertionSort _).1 h1
  have h3 := (List.mem_filter.1 h2).2
  simp only [Bool.and_eq_true, decide_eq_true_eq] at h3
  exact h3

/-- C2 counterexample: on the page text `"cat 111 cat 111"` both retained
tokens have frequency 2, and `"cat"` occurs first, yet the returned list is
`[("111", 2), ("cat", 2)]` — `Object.entries` enumerates the array-index-like
key `"111"` before all string keys, so equal-frequency keywords do not retain
first-occurrence order. -/
theorem C2_counterexample :
    extractKeywordsBasic "cat 111 cat 111" = [("111", 2), ("cat", 2)] ∧
    firstIdx (extractKeywordTokens "cat 111 cat 111") "cat" = 0 ∧
    firstIdx (extractKeywordTokens "cat 111 cat 111") "111" = 1 := by
  decide

/-- C2 amended: every returned KeywordRecord has frequency > 1 and keyword
length > 2 (and is no stop-word), the list is sorted by frequency descending
and capped at 20 entries, in both extraction variants; equal-frequency
keywords retain first-occurrence order provided no retained token is a
canonical array-index string (JS object key ordering enumerates those first,
ascending) and no token collides with an `Object.prototype` property name. -/
theorem C2_keyword_invariants (text : String) (allKeywords : List String) :
    (∀ p ∈ extractKeywordsBasic text,
      1 < p.2 ∧ 2 < p.1.length ∧ isStopWord p.1 = false) ∧
    (extractKeywordsBasic text).Pairwise (fun a b => b.2 ≤ a.2) ∧
    (extractKeywordsBasic text).length ≤ 20 ∧
    (∀ p ∈ sortedKeywordsEnhanced allKeywords, 1 < p.2 ∧ 2 < p.1.length) ∧
    (sortedKeywordsEnhanced allKeywords).Pairwise (fun a b => b.2 ≤ a.2) ∧
    (sortedKeywordsEnhanced allKeywords).length ≤ 20 ∧
    ((∀ t ∈ extractKeywordTokens text,
        isArrayIndexKey t = false ∧ t ∉ objectProtoPropNames) →
      (extractKeywordsBasic text).Pairwise (fun a b => a.2 = b.2 →
        firstIdx (extractKeywordTokens text) a.1
          < firstIdx (extractKeywordTokens text) b.1)) := by
  refine ⟨?_, ?_, ?_, ?_, ?_, ?_, ?_⟩
  · intro p hp
    obtain ⟨hf, ht⟩ := mem_extractKeywordsBasic hp
    obtain ⟨hl, hs⟩ := extractKeywordTokens_props ht
    exact ⟨hf, hl, hs⟩
  · unfold extractKeywordsBasic
    exact List.Pairwise.sublist (List.take_sublist _ _) (sortKeywordPairs_desc _)
  · unfold extractKeywordsBasic
    rw [List.length_take]
    exact min_le_left _ _
  · intro p hp
    obtain ⟨hl, hf⟩ := mem_sortedKeywordsEnhanced hp
    exact ⟨hf, hl⟩
  · unfold sortedKeywordsEnhanced
    exact List.Pairwise.sublist (List.take_sublist _ _) (sortKeywordPairs_desc _)
  · unfold sortedKeywordsEnhanced
    rw [List.length_take]
    exact min_le_left _ _
  · intro hsafe
    have hkeysm : ∀ p ∈ freqMap (extractKeywordTokens text),
        isArrayIndexKey p.1 = false := by
      intro p hp
      exact (hsafe _ (key_mem_toks_of_mem_freqMap hp)).1
    have hobj := objectEntries_eq_self _ hkeysm
    have hkp := freqMap_keys_pairwise (extractKeywordTokens text)
    have hpp : (freqMap (extractKeywordTokens text)).Pairwise
        (fun a b => firstIdx (extractKeywordTokens text) a.1
          < firstIdx (extractKeywordTokens text) b.1) :=
      List.Pairwise.of_map Prod.fst (fun _ _ h => h) hkp
    have hfil := hpp.filter (fun p => decide (1 < p.2))
    have hsort := sortKeywordPairs_pairwise _ hfil
    have htake := List.Pairwise.sublist
      (List.take_sublist 20
        (sortKeywordPairs ((freqMap (extractKeywordTokens text)).filter
          (fun p => decide (1 < p.2))))) hsort
    unfold extractKeywordsBasic
    rw [hobj]
    exact htake.imp (fun hab he => hab.2 he.symm)

theorem C2_keyword_invariants_w :
    (∀ t ∈ extractKeywordTokens "alpha beta alpha beta gamma",
      isArrayIndexKey t = false ∧ t ∉ objectProtoPropNames) ∧
    (extractKeywordsBasic "alpha beta alpha beta gamma").Pairwise
      (fun a b => a.2 = b.2 →
        firstIdx (extractKeywordTokens "alpha beta alpha beta gamma") a.1
          < firstIdx (extractKeywordTokens "alpha beta alpha beta gamma") b.1) :=
  ⟨by decide,
    (C2_keyword_invariants "alpha beta alpha beta gamma" []).2.2.2.2.2.2
      (by decide)⟩
